import Mathlib

/-!
Verification development for the trace-viewer core: the viewer page's gesture
callbacks and boundary hit-test, the panel-tree compiler, and the tab panel's
asynchronous details-loading and cross-fade machinery.

Times are integer nanoseconds (`Int`); pixel coordinates and high-precision
times are rationals (`ℚ`).  External collaborators that are not part of the
sources (TimeScale, TimelineImpl, the async limiter, the change monitor) are
modelled from the spec and marked as such in their doc comments.
-/

namespace PerfettoViewer

/-- Absolute time in integer nanoseconds. -/
abbrev Time := Int

/-- A time span with integer-nanosecond bounds. -/
structure TimeSpan where
  start : Time
  end_ : Time
deriving DecidableEq

/-- A high-precision time span: bounds keep a sub-nanosecond fractional part. -/
structure HPTimeSpan where
  start : ℚ
  end_ : ℚ
deriving DecidableEq

/-- Modelled from the spec: converting the high-precision visible window to an
integer `TimeSpan` snaps outward to whole nanoseconds. -/
def HPTimeSpan.toTimeSpan (w : HPTimeSpan) : TimeSpan :=
  ⟨⌊w.start⌋, ⌈w.end_⌉⟩

/-- Modelled from the spec: `TimeScale` (§4.1), the stateless linear mapping
built from a time domain and a `{left, right}` pixel range.  The class itself
lives outside the given sources; only its constructor calls appear there. -/
structure TimeScale where
  domainStart : ℚ
  domainDuration : ℚ
  left : ℚ
  right : ℚ

/-- Builds the `TimeScale` the gesture callbacks construct per call:
`new TimeScale(timeline.visibleWindow, {left: 0, right: timelineWidthPx})`. -/
def mkTimeScale (w : HPTimeSpan) (left right : ℚ) : TimeScale :=
  ⟨w.start, w.end_ - w.start, left, right⟩

/-- Modelled from the spec: `timeToPx` is the linear map
`px = left + (t - domainStart) * (right - left) / domainDuration`. -/
def TimeScale.timeToPx (ts : TimeScale) (t : ℚ) : ℚ :=
  ts.left + (t - ts.domainStart) * (ts.right - ts.left) / ts.domainDuration

/-- Modelled from the spec: `pxToHpTime` is the inverse map, keeping the
fractional (sub-nanosecond) part. -/
def TimeScale.pxToHpTime (ts : TimeScale) (px : ℚ) : ℚ :=
  ts.domainStart + (px - ts.left) * ts.domainDuration / (ts.right - ts.left)

/-- Modelled from the spec: `pxToDuration` converts a pixel delta to a time
delta using the scale's slope. -/
def TimeScale.pxToDuration (ts : TimeScale) (px : ℚ) : ℚ :=
  px * ts.domainDuration / (ts.right - ts.left)

/-- Snap a high-precision time to an integer nanosecond, rounding down
(`.toTime('floor')`). -/
def hpToTimeFloor (t : ℚ) : Time := ⌊t⌋

/-- Snap a high-precision time to an integer nanosecond, rounding up
(`.toTime('ceil')`). -/
def hpToTimeCeil (t : ℚ) : Time := ⌈t⌉

/-- Modelled from the spec: `.toTime()` with no argument snaps to an integer
nanosecond boundary (default rounding). -/
def hpToTime (t : ℚ) : Time := ⌊t⌋

/-- A committed or in-progress area selection: a time range plus the set of
tracks it spans. -/
structure AreaSel where
  start : Time
  end_ : Time
  trackUris : List String
deriving DecidableEq

/-- The selection tagged union: exactly one kind is active at a time. -/
inductive Selection where
  | empty : Selection
  | track (trackUri : String) : Selection
  | trackEvent (trackUri : String) (eventId : Nat) : Selection
  | area (a : AreaSel) : Selection
deriving DecidableEq

/-- The "kind" discriminant string, as compared by the source
(`selection.kind === 'area'` etc.). -/
def Selection.kind : Selection → String
  | .empty => "empty"
  | .track _ => "track"
  | .trackEvent _ _ => "track_event"
  | .area _ => "area"

/-- Timeline State: the visible window, the ephemeral in-progress selected
area, and the per-gesture vertical extent markers. -/
structure Timeline where
  visibleWindow : HPTimeSpan
  selectedArea : Option AreaSel
  areaYStart : Option ℚ
  areaYEnd : Option ℚ
deriving DecidableEq

/-- Modelled from the spec: `TimelineImpl.selectArea` stores the in-progress
selected area (`selectArea(start, end, trackUris?)`, §4.3); the two-argument
form passes an empty track set. -/
def Timeline.selectArea (tl : Timeline) (start end_ : Time)
    (trackUris : List String) : Timeline :=
  { tl with selectedArea := some ⟨start, end_, trackUris⟩ }

/-- Modelled from the spec: after each mutation the visible window is
re-clamped to lie within the trace bounds (§3 VisibleWindow invariant). -/
def fitWithin (w : HPTimeSpan) (traceStart traceEnd : Time) : HPTimeSpan :=
  let dur := w.end_ - w.start
  if dur ≥ (traceEnd : ℚ) - (traceStart : ℚ) then ⟨traceStart, traceEnd⟩
  else if w.start < traceStart then ⟨traceStart, (traceStart : ℚ) + dur⟩
  else if w.end_ > traceEnd then ⟨(traceEnd : ℚ) - dur, traceEnd⟩
  else w

/-- Modelled from the spec: `panVisibleWindow` translates the visible window
by a time delta and re-clamps it to the trace bounds (§4.2 PANNING). -/
def Timeline.panVisibleWindow (tl : Timeline) (traceStart traceEnd : Time)
    (delta : ℚ) : Timeline :=
  { tl with
      visibleWindow :=
        fitWithin ⟨tl.visibleWindow.start + delta, tl.visibleWindow.end_ + delta⟩
          traceStart traceEnd }

/-- Lower bound keeping the zoomed duration positive (spec: "ratio bounded so
duration never collapses to zero"). -/
def zoomMinDuration : ℚ := 1

/-- Modelled from the spec: `zoomVisibleWindow` rescales the visible window
around the fractional position `centerFraction`, bounding the new duration
away from zero, then re-clamps to the trace bounds (§4.2 ZOOMING). -/
def Timeline.zoomVisibleWindow (tl : Timeline) (traceStart traceEnd : Time)
    (ratio centerFraction : ℚ) : Timeline :=
  let w := tl.visibleWindow
  let dur := w.end_ - w.start
  let newDur := max (dur * ratio) zoomMinDuration
  let newStart := w.start + (dur - newDur) * centerFraction
  { tl with visibleWindow := fitWithin ⟨newStart, newStart + newDur⟩ traceStart traceEnd }

/-- The trace's own time bounds (`trace.traceInfo.start` / `.end`). -/
structure TraceBounds where
  start : Time
  end_ : Time
deriving DecidableEq

/-- The state the viewer page's gesture callbacks read and mutate: Timeline
State, the committed selection, the keep-current-selection flag, and the
cached timeline width (`undefined` until layout has been measured). -/
structure ViewerState where
  timeline : Timeline
  selection : Selection
  keepCurrentSelection : Bool
  timelineWidthPx : Option ℚ
deriving DecidableEq

/-- Result of the boundary hit-test. -/
inductive Boundary where
  | START : Boundary
  | END : Boundary
deriving DecidableEq

/-- Embeds `onTimeRangeBoundary` (viewer_page.ts): checks whether the mouse
position, minus the track-shell width, is within `3 * devicePixelRatio` pixels
of the selected area's start or end, preferring the closer boundary and
preferring START on an exact tie.  The in-progress `selectedArea` overrides
the committed area selection when present.  `shellWidth` is the
`TRACK_SHELL_WIDTH` constant and `dpr` is `window.devicePixelRatio`. -/
def onTimeRangeBoundary (sel : Selection) (selectedArea : Option AreaSel)
    (timescale : TimeScale) (shellWidth dpr mousePos : ℚ) : Option Boundary :=
  match sel with
  | .area selArea =>
    let area := selectedArea.getD selArea
    let startPx := timescale.timeToPx area.start
    let endPx := timescale.timeToPx area.end_
    let startDrag := mousePos - shellWidth
    let startDistance := |startPx - startDrag|
    let endDistance := |endPx - startDrag|
    let range := 3 * dpr
    if startDistance < range ∧ startDistance ≤ endDistance then some .START
    else if endDistance < range ∧ endDistance ≤ startDistance then some .END
    else none
  | _ => none

/-- Embeds the `editSelection` callback: false when the timeline width is
still undefined, otherwise whether the boundary hit-test hits. -/
def editSelection (st : ViewerState) (shellWidth dpr currentPx : ℚ) : Bool :=
  match st.timelineWidthPx with
  | none => false
  | some width =>
    let timescale := mkTimeScale st.timeline.visibleWindow 0 width
    (onTimeRangeBoundary st.selection st.timeline.selectedArea timescale
        shellWidth dpr currentPx).isSome

/-- Embeds the `onPanned` callback: no-op when the timeline width is
undefined; otherwise sets the keep-current-selection flag, converts the pixel
delta to a time delta through the per-call `TimeScale` and pans the visible
window. -/
def onPanned (st : ViewerState) (tb : TraceBounds) (pannedPx : ℚ) : ViewerState :=
  match st.timelineWidthPx with
  | none => st
  | some width =>
    let timescale := mkTimeScale st.timeline.visibleWindow 0 width
    let tDelta := timescale.pxToDuration pannedPx
    { st with
        keepCurrentSelection := true,
        timeline := st.timeline.panVisibleWindow tb.start tb.end_ tDelta }

/-- Embeds the `onZoomed` callback: computes the zoom center as a fraction of
the DOM rect's width minus the shell width, and rescales the visible window.
Note: the source performs no timeline-width check here. -/
def onZoomed (st : ViewerState) (tb : TraceBounds)
    (shellWidth rectWidth zoomedPositionPx zoomRatio : ℚ) : ViewerState :=
  let zoomPx := zoomedPositionPx - shellWidth
  let centerPoint := zoomPx / (rectWidth - shellWidth)
  { st with
      timeline :=
        st.timeline.zoomVisibleWindow tb.start tb.end_ (1 - zoomRatio) centerPoint }

/-- Clamp from base/math_utils: `clamp(x, lo, hi)` restricts `x` to
`[lo, hi]`. -/
def clamp (x lo hi : ℚ) : ℚ := min (max x lo) hi

/-- Embeds the `onSelection` callback, both the editing and the fresh-select
branch.  Editing: re-runs the boundary hit-test at the previous pointer
position, keeps the unmoving boundary, clamps the moving boundary first to
the current screen and then (together with the kept one) to the trace bounds.
Fresh select: sorts and shell-offsets the drag bounds, discards the gesture
when both are negative, clamps to `[0, width]`, and commits the floor/ceil
time pair plus the vertical extent markers. -/
def onSelection (st : ViewerState) (tb : TraceBounds) (shellWidth dpr : ℚ)
    (dragStartX dragStartY prevX currentX currentY : ℚ)
    (editing : Bool) : ViewerState :=
  match st.timelineWidthPx with
  | none => st
  | some width =>
    let timespan := st.timeline.visibleWindow.toTimeSpan
    let st1 := { st with keepCurrentSelection := true }
    let timescale := mkTimeScale st.timeline.visibleWindow 0 width
    if editing then
      match st1.selection with
      | .area selArea =>
        let area := st1.timeline.selectedArea.getD selArea
        let newTime0 := hpToTime (timescale.pxToHpTime (currentX - shellWidth))
        match onTimeRangeBoundary st1.selection st1.timeline.selectedArea
            timescale shellWidth dpr prevX with
        | none => st1
        | some curBoundary =>
          let keepTime := if curBoundary = .START then area.end_ else area.start
          let newTime :=
            if newTime0 < keepTime then max newTime0 timespan.start
            else min newTime0 timespan.end_
          { st1 with
              timeline := st1.timeline.selectArea
                (max (min keepTime newTime) tb.start)
                (min (max keepTime newTime) tb.end_)
                selArea.trackUris }
      | _ => st1
    else
      let startPx := min dragStartX currentX - shellWidth
      let endPx := max dragStartX currentX - shellWidth
      if startPx < 0 ∧ endPx < 0 then st1
      else
        let startPx2 := clamp startPx 0 width
        let endPx2 := clamp endPx 0 width
        let tl := st1.timeline.selectArea
          (hpToTimeFloor (timescale.pxToHpTime startPx2))
          (hpToTimeCeil (timescale.pxToHpTime endPx2))
          []
        { st1 with
            timeline :=
              { tl with areaYStart := some dragStartY, areaYEnd := some currentY } }

/-- Embeds the background `onclick` handler: a set keep-current-selection flag
is consumed (reset) without clearing; otherwise `selection.clear()` runs.  The
boolean result records whether `clear()` was called. -/
def onclick (st : ViewerState) : ViewerState × Bool :=
  if st.keepCurrentSelection then
    ({ st with keepCurrentSelection := false }, false)
  else
    ({ st with selection := .empty }, true)

/-- A node of the track tree, owned by the workspace: an optional URI,
ordered children, and the collapsed / headless / summary attributes. -/
inductive TrackNode where
  | mk (uri : Option String) (children : List TrackNode)
      (collapsed headless isSummary : Bool) : TrackNode

def TrackNode.uri : TrackNode → Option String
  | .mk u _ _ _ _ => u

def TrackNode.children : TrackNode → List TrackNode
  | .mk _ c _ _ _ => c

def TrackNode.collapsed : TrackNode → Bool
  | .mk _ _ c _ _ => c

def TrackNode.headless : TrackNode → Bool
  | .mk _ _ _ h _ => h

def TrackNode.isSummary : TrackNode → Bool
  | .mk _ _ _ _ s => s

/-- A leaf render unit of the compiled panel list. -/
structure Panel where
  node : TrackNode
  heightPx : ℚ
  topOffsetPx : ℚ
  indentationLevel : Nat

/-- A compiled panel or panel group (a header panel wrapping child panels). -/
inductive PanelOrGroup where
  | panel (p : Panel) : PanelOrGroup
  | group (collapsed : Bool) (header : Panel) (sticky : Bool)
      (topOffsetPx : ℚ) (childPanels : List PanelOrGroup) : PanelOrGroup

/-- Embeds `renderTrackPanel`: builds one `TrackPanel` for a node at the given
indentation and sticky offset.  The panel's height is supplied by the track
renderer, which lives outside these sources, so it is a parameter `height`. -/
def renderTrackPanel (height : TrackNode → ℚ) (node : TrackNode)
    (indent : Nat) (topOffsetPx : ℚ) : Panel :=
  ⟨node, height node, topOffsetPx, indent⟩

/-- Embeds `renderNodes`: flattens the track tree depth-first.  A headless
node is elided and its children promoted at the same indent and offset; a
childless node yields one panel; otherwise a group is produced whose children
are rendered at `indent + 1`, with the header's height added to the offset
only when the node is a summary (sticky) node, and omitted entirely when the
node is collapsed. -/
def renderNodes (height : TrackNode → ℚ) :
    List TrackNode → Nat → ℚ → List PanelOrGroup
  | [], _, _ => []
  | .mk uri children collapsed headless isSummary :: rest, indent, topOffsetPx =>
    let node := TrackNode.mk uri children collapsed headless isSummary
    (if headless then
      renderNodes height children indent topOffsetPx
    else if children.isEmpty then
      [.panel (renderTrackPanel height node indent topOffsetPx)]
    else
      let headerPanel := renderTrackPanel height node indent topOffsetPx
      let isSticky := isSummary
      let nextTopOffsetPx :=
        if isSticky then topOffsetPx + headerPanel.heightPx else topOffsetPx
      [.group collapsed headerPanel isSticky topOffsetPx
        (if collapsed then []
         else renderNodes height children (indent + 1) nextTopOffsetPx)])
      ++ renderNodes height rest indent topOffsetPx

/-- All leaf panels appearing anywhere in a compiled panel list, group headers
included, in depth-first order. -/
def flattenPanels : List PanelOrGroup → List Panel
  | [] => []
  | .panel p :: rest => p :: flattenPanels rest
  | .group _ header _ _ childPanels :: rest =>
    header :: (flattenPanels childPanels ++ flattenPanels rest)

/-! ## Tab panel: asynchronous details loading -/

/-- The per-track descriptor the tab panel looks up; `detailsPanel` records
whether `track.detailsPanel?.(selection)` yields a details panel. -/
structure Track where
  detailsPanel : Bool
deriving DecidableEq

/-- The details slot object created per track-event selection:
`{detailsPanel, isLoading}`.  `forSelection` identifies which selection's
details panel it wraps. -/
structure Renderable where
  forSelection : Selection
  isLoading : Bool
deriving DecidableEq

/-- State of the tab panel's details machinery.  `lastSeen` is the change
monitor's previous observation (modelled from the spec: the monitor fires when
the selection differs from it).  `renderables` is the heap of slot objects
created so far, so distinct schedules mutate distinct objects, as the source's
closures do.  `pendingLoad` is the async limiter's single slot, modelled from
the spec: only the most recently scheduled load's completion is honored. -/
structure TabPanelState where
  lastSeen : Option Selection
  trackEventDetailsPanel : Option Nat
  renderables : List Renderable
  pendingLoad : Option Nat
deriving DecidableEq

/-- Embeds `TabPanel.maybeLoadDetailsPanel`: when the monitor reports a
selection change, a non-track-event selection (or a missing track or missing
details-panel factory) clears the slot; otherwise a fresh `{detailsPanel,
isLoading: true}` object is created, its `load()` is scheduled through the
limiter, and the slot is pointed at the fresh object. -/
def maybeLoadDetailsPanel (getTrack : String → Option Track)
    (currentSelection : Selection) (st : TabPanelState) : TabPanelState :=
  if st.lastSeen = some currentSelection then st
  else
    let st := { st with lastSeen := some currentSelection }
    match currentSelection with
    | .trackEvent trackUri _ =>
      match getTrack trackUri with
      | none => { st with trackEventDetailsPanel := none }
      | some td =>
        if td.detailsPanel then
          let i := st.renderables.length
          { st with
              renderables := st.renderables ++ [⟨currentSelection, true⟩],
              pendingLoad := some i,
              trackEventDetailsPanel := some i }
        else { st with trackEventDetailsPanel := none }
    | _ => { st with trackEventDetailsPanel := none }

/-- Flip `isLoading` of the `i`-th renderable to false (the load
continuation's `renderable.isLoading = false`). -/
def setLoadingDone : List Renderable → Nat → List Renderable
  | [], _ => []
  | r :: rest, 0 => { r with isLoading := false } :: rest
  | r :: rest, n + 1 => r :: setLoadingDone rest n

/-- Modelled from the spec: the async limiter's resolution of load `i`
("latest selection wins", §4.6): if `i` is still the most recently scheduled
load, its continuation runs, flipping the renderable's `isLoading` to false;
a superseded (stale) load's completion is discarded. -/
def completeLoad (i : Nat) (st : TabPanelState) : TabPanelState :=
  if st.pendingLoad = some i then
    { st with renderables := setLoadingDone st.renderables i, pendingLoad := none }
  else st

/-- The renderable currently held by the details slot, if any. -/
def slotRenderable (st : TabPanelState) : Option Renderable :=
  st.trackEventDetailsPanel.bind (fun i => st.renderables[i]?)

/-! ## Cross-fade transition -/

/-- State of the `FadeContext` and the fade-out completion promises.
`resolverSlot = some i` means the context stores the resolver of promise `i`;
`none` models the no-op resolver `() => {}`.  `resolvedIds` is the set of
settled promises (a promise settles at most once), `timers` the pending
fixed-duration timers, `nextPromiseId` a fresh-name counter. -/
structure FadeState where
  resolverSlot : Option Nat
  resolvedIds : List Nat
  timers : List Nat
  nextPromiseId : Nat
deriving DecidableEq

/-- Whether fade-out completion promise `i` has settled. -/
def promiseResolved (st : FadeState) (i : Nat) : Bool :=
  st.resolvedIds.contains i

/-- Embeds `FadeOut.onbeforeremove`: creates the completion promise, stores
its resolver in the context (`putResolver`) and starts the fixed-duration
timer (`setTimeout(res, FADE_TIME_MS)`). -/
def fadeOutBeforeRemove (st : FadeState) : FadeState :=
  { st with
      resolverSlot := some st.nextPromiseId,
      timers := st.timers ++ [st.nextPromiseId],
      nextPromiseId := st.nextPromiseId + 1 }

/-- Embeds the fade timer firing: `setTimeout(res, ...)` calls the promise's
resolver directly, settling the promise (idempotently) without touching the
context's stored resolver. -/
def timerFire (i : Nat) (st : FadeState) : FadeState :=
  if i ∈ st.timers then
    { st with timers := st.timers.erase i, resolvedIds := st.resolvedIds.insert i }
  else st

/-- Embeds `FadeOut.oncreate` calling `FadeContext.resolve()`: the stored
resolver is invoked (settling its promise) and then replaced by the no-op. -/
def fadeOutCreate (st : FadeState) : FadeState :=
  match st.resolverSlot with
  | some i => { st with resolvedIds := st.resolvedIds.insert i, resolverSlot := none }
  | none => st

/-- Embeds `FadeIn.oncreate`: it only starts its own show timer and never
touches the fade context, so it is the identity on the fade state. -/
def fadeInCreate (st : FadeState) : FadeState := st

/-! ## Concrete fixtures used by the claim theorems -/

/-- A timescale mapping the window `[0, 100]` identically onto pixels
`[0, 100]`. -/
def idScale : TimeScale := mkTimeScale ⟨0, 100⟩ 0 100

/-- Viewer state holding a committed area selection `[10, 50]` over the
identity window, with a measured width of 100 px. -/
def c2State : ViewerState :=
  ⟨⟨⟨0, 100⟩, none, none, none⟩, .area ⟨10, 50, []⟩, false, some 100⟩

/-! ## C2 -/

/-- C2: boundary hit-test.  For every area selection, with `s`/`e` the area's
boundary pixel positions, probe `p = mousePos - shellWidth`, and threshold
`r = 3 * devicePixelRatio`, the result is START when `|s-p| < r` and
`|s-p| ≤ |e-p|` (so an exact tie within threshold yields START), END when
`|e-p| < r` and `|e-p| ≤ |s-p|`, and null otherwise; in particular with
`s = 10`, `e = 50`, `r = 3`: probe 12 yields START, probe 48 yields END, and
probe 30 yields null with no boundary edit starting. -/
theorem C2_boundary_hit_test (ts : TimeScale) (a : AreaSel) (sa : Option AreaSel)
    (shellWidth dpr mousePos : ℚ) :
    (onTimeRangeBoundary (.area a) sa ts shellWidth dpr mousePos =
      (let area := sa.getD a
       let s := ts.timeToPx area.start
       let e := ts.timeToPx area.end_
       let p := mousePos - shellWidth
       let r := 3 * dpr
       if |s - p| < r ∧ |s - p| ≤ |e - p| then some .START
       else if |e - p| < r ∧ |e - p| ≤ |s - p| then some .END
       else none)) ∧
    onTimeRangeBoundary (.area ⟨10, 50, []⟩) none idScale 0 1 12 = some .START ∧
    onTimeRangeBoundary (.area ⟨10, 50, []⟩) none idScale 0 1 48 = some .END ∧
    onTimeRangeBoundary (.area ⟨10, 50, []⟩) none idScale 0 1 30 = none ∧
    editSelection c2State 0 1 30 = false := by
  refine ⟨rfl, ?_, ?_, ?_, ?_⟩ <;>
    norm_num [onTimeRangeBoundary, idScale, mkTimeScale, TimeScale.timeToPx,
      editSelection, c2State]

/-! ## C10 -/

/-- C10: implicit precondition for boundary editing.  For every state whose
current selection kind is not "area", the boundary hit-test returns null and
the `editSelection` callback returns false, so a pointer drag can only enter
boundary editing over an area selection. -/
theorem C10_non_area_never_edits (st : ViewerState) (ts : TimeScale)
    (shellWidth dpr mousePos currentPx : ℚ)
    (h : st.selection.kind ≠ "area") :
    onTimeRangeBoundary st.selection st.timeline.selectedArea ts
      shellWidth dpr mousePos = none ∧
    editSelection st shellWidth dpr currentPx = false := by
  have hb : ∀ (ts2 : TimeScale) (m2 : ℚ),
      onTimeRangeBoundary st.selection st.timeline.selectedArea ts2
        shellWidth dpr m2 = none := by
    intro ts2 m2
    cases hs : st.selection with
    | empty => rfl
    | track _ => rfl
    | trackEvent _ _ => rfl
    | area a => rw [hs] at h; simp [Selection.kind] at h
  refine ⟨hb ts mousePos, ?_⟩
  unfold editSelection
  cases st.timelineWidthPx with
  | none => rfl
  | some w => simp [hb]

/-- C10 witness: a concrete non-area selection neither hits a boundary nor
enters editing. -/
theorem C10_non_area_never_edits_witness :
    Selection.kind (.track "t") ≠ "area" ∧
    (onTimeRangeBoundary (ViewerState.selection
        ⟨⟨⟨0, 100⟩, none, none, none⟩, .track "t", false, some 100⟩)
      (Timeline.selectedArea ⟨⟨0, 100⟩, none, none, none⟩) idScale 0 1 30 = none ∧
     editSelection ⟨⟨⟨0, 100⟩, none, none, none⟩, .track "t", false, some 100⟩ 0 1 30 = false) :=
  ⟨by decide,
   C10_non_area_never_edits ⟨⟨⟨0, 100⟩, none, none, none⟩, .track "t", false, some 100⟩
     idScale 0 1 30 30 (by decide)⟩

/-! ## C7 -/

/-- Leaf node C of the sticky-offset example. -/
def nodeC : TrackNode := .mk (some "C") [] false false false

/-- Summary group B (header height 15) containing C. -/
def nodeB : TrackNode := .mk (some "B") [nodeC] false false true

/-- Summary group A (header height 20) containing B. -/
def nodeA : TrackNode := .mk (some "A") [nodeB] false false true

/-- Header heights for the sticky-offset example: A is 20 px, B is 15 px and
the leaf C is 10 px. -/
def exampleHeight : TrackNode → ℚ := fun n =>
  match n.uri with
  | some "A" => 20
  | some "B" => 15
  | _ => 10

/-- C7: sticky offset accumulation.  For every non-leaf, non-headless node the
children are compiled at the incoming offset plus the header's height exactly
when the node is a summary (sticky) node, and at the unchanged offset
otherwise; hence the group tree A(summary, 20 px) → B(summary, 15 px) →
C(leaf) compiles C's panel at `topOffsetPx = 35`. -/
theorem C7_sticky_offset_accumulation (height : TrackNode → ℚ)
    (uri : Option String) (c : TrackNode) (cs : List TrackNode)
    (collapsed isSummary : Bool) (indent : Nat) (topOffsetPx : ℚ) :
    (renderNodes height [.mk uri (c :: cs) collapsed false isSummary]
        indent topOffsetPx =
      [.group collapsed
        (renderTrackPanel height (.mk uri (c :: cs) collapsed false isSummary)
          indent topOffsetPx)
        isSummary topOffsetPx
        (if collapsed then []
         else renderNodes height (c :: cs) (indent + 1)
           (if isSummary then
              topOffsetPx + height (.mk uri (c :: cs) collapsed false isSummary)
            else topOffsetPx))]) ∧
    (flattenPanels (renderNodes exampleHeight [nodeA] 0 0)).map
        (fun p => (p.node.uri, p.topOffsetPx)) =
      [(some "A", 0), (some "B", 20), (some "C", 35)] := by
  constructor
  · simp [renderNodes, renderTrackPanel]
  · norm_num [renderNodes, flattenPanels, nodeA, nodeB, nodeC, exampleHeight,
      renderTrackPanel, TrackNode.uri, List.isEmpty]

/-! ## C8 -/

/-- Leaf node used in the collapsed-headless counterexample. -/
def nodeL : TrackNode := .mk (some "L") [] false false false

/-- A node that is both collapsed and headless, with the leaf child L. -/
def nodeH : TrackNode := .mk none [nodeL] true true false

/-- C8 counterexample: a collapsed node that is also headless does render its
descendants — the compiler checks `headless` first and ignores `collapsed`,
so L's panel appears in the compiled list (and no header is produced),
refuting the claim for every node with `collapsed = true`. -/
theorem C8_counterexample :
    nodeH.collapsed = true ∧
    (flattenPanels (renderNodes exampleHeight [nodeH] 0 0)).map Panel.node = [nodeL] := by
  refine ⟨rfl, ?_⟩
  simp [renderNodes, flattenPanels, nodeH, nodeL, renderTrackPanel,
    TrackNode.headless, TrackNode.children]

/-- C8 (amended): for every non-headless node with children and
`collapsed = true`, the compiled output is a single group whose `childPanels`
is empty — so no descendant at any depth yields a panel — while the group's
own header panel is still produced. -/
theorem C8_collapsed_group (height : TrackNode → ℚ) (uri : Option String)
    (c : TrackNode) (cs : List TrackNode) (isSummary : Bool)
    (indent : Nat) (topOffsetPx : ℚ) :
    renderNodes height [.mk uri (c :: cs) true false isSummary]
        indent topOffsetPx =
      [.group true
        (renderTrackPanel height (.mk uri (c :: cs) true false isSummary)
          indent topOffsetPx)
        isSummary topOffsetPx []] ∧
    flattenPanels (renderNodes height [.mk uri (c :: cs) true false isSummary]
        indent topOffsetPx) =
      [renderTrackPanel height (.mk uri (c :: cs) true false isSummary)
        indent topOffsetPx] := by
  constructor <;> simp [renderNodes, flattenPanels, renderTrackPanel]

/-! ## C6 -/

/-- C6: keep-current-selection flag.  A click calls `selection.clear()` iff
the flag is unset at click time; after a pan sets the flag, the first
background click leaves the selection untouched and consumes the flag, and a
second click clears the selection. -/
theorem C6_keep_current_selection (st : ViewerState) (tb : TraceBounds)
    (pannedPx width : ℚ) :
    ((onclick st).2 = !st.keepCurrentSelection) ∧
    (let stP := onPanned { st with timelineWidthPx := some width } tb pannedPx
     stP.keepCurrentSelection = true ∧
     (onclick stP).1.selection = stP.selection ∧
     (onclick stP).2 = false ∧
     (onclick stP).1.keepCurrentSelection = false ∧
     (onclick (onclick stP).1).2 = true ∧
     (onclick (onclick stP).1).1.selection = .empty) := by
  constructor
  · cases h : st.keepCurrentSelection <;> simp [onclick, h]
  · exact ⟨rfl, rfl, rfl, rfl, rfl, rfl⟩

/-! ## C5 -/

/-- Viewer state with an unmeasured (undefined) timeline width. -/
def c5State : ViewerState :=
  ⟨⟨⟨0, 100⟩, none, none, none⟩, .empty, false, none⟩

/-- C5 counterexample: with the timeline width still undefined, the zoom
callback is not a no-op — it performs no width check and mutates the visible
window — refuting the claim for every gesture callback. -/
theorem C5_counterexample :
    c5State.timelineWidthPx = none ∧
    (onZoomed c5State ⟨0, 1000⟩ 0 100 50 (1/2)).timeline.visibleWindow ≠
      c5State.timeline.visibleWindow := by
  refine ⟨rfl, ?_⟩
  have h : (onZoomed c5State ⟨0, 1000⟩ 0 100 50 (1/2)).timeline.visibleWindow =
      ⟨25, 75⟩ := by
    norm_num [onZoomed, c5State, Timeline.zoomVisibleWindow, fitWithin,
      zoomMinDuration, max_def]
  rw [h]
  norm_num [c5State, HPTimeSpan.mk.injEq]

/-- C5 (amended): when the timeline width is undefined the pan, select and
edit-selection callbacks are no-ops that leave the state unchanged; the zoom
callback performs no such width check. -/
theorem C5_undefined_width_noop (tl : Timeline) (sel : Selection) (k : Bool)
    (tb : TraceBounds) (shellWidth dpr pannedPx dsX dsY pX cX cY cp : ℚ)
    (editing : Bool) :
    onPanned ⟨tl, sel, k, none⟩ tb pannedPx = ⟨tl, sel, k, none⟩ ∧
    onSelection ⟨tl, sel, k, none⟩ tb shellWidth dpr dsX dsY pX cX cY editing =
      ⟨tl, sel, k, none⟩ ∧
    editSelection ⟨tl, sel, k, none⟩ shellWidth dpr cp = false := by
  exact ⟨rfl, rfl, rfl⟩

/-! ## C3 -/

/-- Viewer state with a measured width of 100 px and no selection, used for
the fresh-selection counterexample. -/
def c3State : ViewerState :=
  ⟨⟨⟨0, 100⟩, none, none, none⟩, .empty, false, some 100⟩

/-- C3 counterexample: with viewport width 100, dragging entirely at pixel
200 puts both bounds at 180, outside the viewport, yet the gesture is not
discarded — the source only discards when both bounds are negative — so a
clamped (degenerate) area is committed, changing the selection state. -/
theorem C3_counterexample :
    (min (200:ℚ) 200 - 20 = 180 ∧ (100:ℚ) < 180) ∧
    c3State.timeline.selectedArea = none ∧
    (onSelection c3State ⟨0, 1000⟩ 20 1 200 5 0 200 7 false).timeline.selectedArea =
      some ⟨100, 100, []⟩ := by
  refine ⟨⟨by norm_num, by norm_num⟩, rfl, ?_⟩
  norm_num [onSelection, c3State, clamp, mkTimeScale, TimeScale.pxToHpTime,
    hpToTimeFloor, hpToTimeCeil, Timeline.selectArea, max_def, min_def]

/-- C3 (amended): the fresh (non-editing) SELECTING branch computes
`startPx = min(dragStartX, currentX) - shellWidth` and
`endPx = max(dragStartX, currentX) - shellWidth`, discards the gesture (no
Timeline State change) when both bounds fall left of the viewport (both
negative) before clamping, and otherwise clamps both to `[0, width]` and
commits the floor/ceil time pair plus the vertical extent markers; in
particular `dragStartX = 100`, `currentX = 40`, shell width 20 (with
`width ≥ 80`) commits the range
`[pxToHpTime(20).toTime('floor'), pxToHpTime(80).toTime('ceil')]`. -/
theorem C3_fresh_selection (tl : Timeline) (sel : Selection) (k : Bool)
    (width : ℚ) (tb : TraceBounds) (shellWidth dpr dsX dsY pX cX cY : ℚ) :
    (min dsX cX - shellWidth < 0 → max dsX cX - shellWidth < 0 →
      (onSelection ⟨tl, sel, k, some width⟩ tb shellWidth dpr
        dsX dsY pX cX cY false).timeline = tl) ∧
    (¬(min dsX cX - shellWidth < 0 ∧ max dsX cX - shellWidth < 0) →
      (onSelection ⟨tl, sel, k, some width⟩ tb shellWidth dpr
        dsX dsY pX cX cY false).timeline =
        { tl with
            selectedArea := some
              ⟨hpToTimeFloor ((mkTimeScale tl.visibleWindow 0 width).pxToHpTime
                  (clamp (min dsX cX - shellWidth) 0 width)),
                hpToTimeCeil ((mkTimeScale tl.visibleWindow 0 width).pxToHpTime
                  (clamp (max dsX cX - shellWidth) 0 width)), []⟩,
            areaYStart := some dsY,
            areaYEnd := some cY }) ∧
    (dsX = 100 → cX = 40 → shellWidth = 20 → (80:ℚ) ≤ width →
      (onSelection ⟨tl, sel, k, some width⟩ tb shellWidth dpr
        dsX dsY pX cX cY false).timeline.selectedArea =
        some ⟨hpToTimeFloor ((mkTimeScale tl.visibleWindow 0 width).pxToHpTime 20),
              hpToTimeCeil ((mkTimeScale tl.visibleWindow 0 width).pxToHpTime 80), []⟩) := by
  have hmain : ¬(min dsX cX - shellWidth < 0 ∧ max dsX cX - shellWidth < 0) →
      (onSelection ⟨tl, sel, k, some width⟩ tb shellWidth dpr
        dsX dsY pX cX cY false).timeline =
        { tl with
            selectedArea := some
              ⟨hpToTimeFloor ((mkTimeScale tl.visibleWindow 0 width).pxToHpTime
                  (clamp (min dsX cX - shellWidth) 0 width)),
                hpToTimeCeil ((mkTimeScale tl.visibleWindow 0 width).pxToHpTime
                  (clamp (max dsX cX - shellWidth) 0 width)), []⟩,
            areaYStart := some dsY,
            areaYEnd := some cY } := by
    intro h
    simp only [onSelection, Timeline.selectArea]
    rw [if_neg h]
    rfl
  refine ⟨?_, hmain, ?_⟩
  · intro h1 h2
    have hc : min dsX cX - shellWidth < 0 ∧ max dsX cX - shellWidth < 0 := ⟨h1, h2⟩
    simp only [onSelection]
    rw [if_pos hc]
    rfl
  · intro hd hc hs hW
    subst hd; subst hc; subst hs
    have hne : ¬(min (100:ℚ) 40 - 20 < 0 ∧ max (100:ℚ) 40 - 20 < 0) := by norm_num
    have h20 : clamp (min (100:ℚ) 40 - 20) 0 width = 20 := by
      rw [clamp]
      rw [show min (100:ℚ) 40 - 20 = 20 by norm_num]
      rw [max_eq_left (by norm_num : (0:ℚ) ≤ 20), min_eq_left (by linarith)]
    have h80 : clamp (max (100:ℚ) 40 - 20) 0 width = 80 := by
      rw [clamp]
      rw [show max (100:ℚ) 40 - 20 = 80 by norm_num]
      rw [max_eq_left (by norm_num : (0:ℚ) ≤ 80), min_eq_left (by linarith)]
    rw [hmain hne]
    rw [h20, h80]

/-- C3 witness: the concrete drag `dragStartX = 100`, `currentX = 40` with
shell width 20 over a 100 px viewport commits the floor/ceil pair at pixels
20 and 80. -/
theorem C3_fresh_selection_witness :
    (onSelection ⟨⟨⟨0, 100⟩, none, none, none⟩, .empty, false, some 100⟩ ⟨0, 1000⟩
        20 1 100 5 0 40 7 false).timeline.selectedArea =
      some ⟨hpToTimeFloor ((mkTimeScale ⟨0, 100⟩ 0 100).pxToHpTime 20),
            hpToTimeCeil ((mkTimeScale ⟨0, 100⟩ 0 100).pxToHpTime 80), []⟩ := by
  exact (C3_fresh_selection ⟨⟨0, 100⟩, none, none, none⟩ .empty false 100 ⟨0, 1000⟩
    20 1 100 5 0 40 7).2.2 rfl rfl rfl (by norm_num)

/-! ## C4 -/

/-- The boundary value the editing branch keeps fixed: the area's end when
START is being dragged, its start when END is (the in-progress area overrides
a committed one). -/
def keptBoundary (tl : Timeline) (a : AreaSel) (b : Boundary) : Time :=
  if b = .START then (tl.selectedArea.getD a).end_ else (tl.selectedArea.getD a).start

/-- Arithmetic core of the editing clamp: when the kept boundary lies inside
the trace bounds, the clamped pair keeps it exactly, is ordered, and stays in
bounds. -/
theorem minmaxKeep (K NT ts te : Int) (h1 : ts ≤ K) (h2 : K ≤ te) :
    (max (min K NT) ts = K ∨ min (max K NT) te = K) ∧
    ts ≤ max (min K NT) ts ∧
    max (min K NT) ts ≤ min (max K NT) te ∧
    min (max K NT) te ≤ te := by
  omega

/-- C4: boundary editing.  The boundary to move is decided by re-running the
hit-test at the previous pointer position: when that hit-test returns null
the callback leaves Timeline State unchanged; when it returns a boundary
(and the kept boundary lies within the trace bounds) the committed area keeps
the unmoving boundary's exact time value while both resulting bounds are
clamped inside the trace's own bounds. -/
theorem C4_editing_selection (tl : Timeline) (a : AreaSel) (k : Bool)
    (width : ℚ) (tb : TraceBounds) (shellWidth dpr dsX dsY pX cX cY : ℚ) :
    (onTimeRangeBoundary (.area a) tl.selectedArea
        (mkTimeScale tl.visibleWindow 0 width) shellWidth dpr pX = none →
      (onSelection ⟨tl, .area a, k, some width⟩ tb shellWidth dpr
        dsX dsY pX cX cY true).timeline = tl) ∧
    (∀ b : Boundary,
      onTimeRangeBoundary (.area a) tl.selectedArea
          (mkTimeScale tl.visibleWindow 0 width) shellWidth dpr pX = some b →
      tb.start ≤ keptBoundary tl a b → keptBoundary tl a b ≤ tb.end_ →
      ∃ s e : Time,
        (onSelection ⟨tl, .area a, k, some width⟩ tb shellWidth dpr
          dsX dsY pX cX cY true).timeline.selectedArea = some ⟨s, e, a.trackUris⟩ ∧
        (s = keptBoundary tl a b ∨ e = keptBoundary tl a b) ∧
        tb.start ≤ s ∧ s ≤ e ∧ e ≤ tb.end_) := by
  constructor
  · intro h
    simp only [onSelection]
    simp [h]
  · intro b hb hks hke
    have hres : (onSelection ⟨tl, .area a, k, some width⟩ tb shellWidth dpr
        dsX dsY pX cX cY true).timeline.selectedArea =
        some ⟨max (min (keptBoundary tl a b)
                (if hpToTime ((mkTimeScale tl.visibleWindow 0 width).pxToHpTime
                      (cX - shellWidth)) < keptBoundary tl a b then
                   max (hpToTime ((mkTimeScale tl.visibleWindow 0 width).pxToHpTime
                      (cX - shellWidth))) tl.visibleWindow.toTimeSpan.start
                 else
                   min (hpToTime ((mkTimeScale tl.visibleWindow 0 width).pxToHpTime
                      (cX - shellWidth))) tl.visibleWindow.toTimeSpan.end_))
              tb.start,
              min (max (keptBoundary tl a b)
                (if hpToTime ((mkTimeScale tl.visibleWindow 0 width).pxToHpTime
                      (cX - shellWidth)) < keptBoundary tl a b then
                   max (hpToTime ((mkTimeScale tl.visibleWindow 0 width).pxToHpTime
                      (cX - shellWidth))) tl.visibleWindow.toTimeSpan.start
                 else
                   min (hpToTime ((mkTimeScale tl.visibleWindow 0 width).pxToHpTime
                      (cX - shellWidth))) tl.visibleWindow.toTimeSpan.end_))
              tb.end_,
              a.trackUris⟩ := by
      simp only [onSelection, hb, keptBoundary]
      simp [Timeline.selectArea]
    exact ⟨_, _, hres,
      (minmaxKeep _ _ _ _ hks hke).1,
      (minmaxKeep _ _ _ _ hks hke).2.1,
      (minmaxKeep _ _ _ _ hks hke).2.2.1,
      (minmaxKeep _ _ _ _ hks hke).2.2.2⟩


/-- C4 witness: dragging the START boundary of area `[10, 50]` (hit at the
previous pointer position 11) to pixel 30 keeps the end boundary at exactly
50 and stays within the trace bounds. -/
theorem C4_editing_selection_witness :
    ∃ s e : Time,
      (onSelection ⟨⟨⟨0, 100⟩, none, none, none⟩, .area ⟨10, 50, ["t"]⟩,
          false, some 100⟩ ⟨0, 100⟩ 0 1 0 0 11 30 0 true).timeline.selectedArea =
        some ⟨s, e, ["t"]⟩ ∧
      (s = keptBoundary ⟨⟨0, 100⟩, none, none, none⟩ ⟨10, 50, ["t"]⟩ .START ∨
       e = keptBoundary ⟨⟨0, 100⟩, none, none, none⟩ ⟨10, 50, ["t"]⟩ .START) ∧
      (0 : Time) ≤ s ∧ s ≤ e ∧ e ≤ 100 := by
  have h := (C4_editing_selection ⟨⟨0, 100⟩, none, none, none⟩ ⟨10, 50, ["t"]⟩
      false 100 ⟨0, 100⟩ 0 1 0 0 11 30 0).2 .START
    (by norm_num [onTimeRangeBoundary, mkTimeScale, TimeScale.timeToPx])
    (by simp [keptBoundary]) (by simp [keptBoundary])
  exact h

/-! ## C1 -/

/-- Flipping the loading flag of the renderable appended last touches only
that renderable. -/
theorem setLoadingDone_concat (l : List Renderable) (a : Renderable) :
    setLoadingDone (l ++ [a]) l.length = l ++ [{ a with isLoading := false }] := by
  induction l with
  | nil => rfl
  | cons x xs ih => simp [setLoadingDone, ih]

/-- Looking up the renderable appended last. -/
theorem getElem?_concat (l : List Renderable) (a : Renderable) :
    (l ++ [a])[l.length]? = some a := by
  induction l with
  | nil => rfl
  | cons x xs ih => simp

/-- State of the tab panel after scheduling loads for two consecutive
selections (X first, then Y before X's load resolves). -/
def afterTwoSchedules (getTrack : String → Option Track) (selX selY : Selection)
    (st0 : TabPanelState) : TabPanelState :=
  maybeLoadDetailsPanel getTrack selY (maybeLoadDetailsPanel getTrack selX st0)

/-- C1: latest-selection-wins.  When a load is scheduled for track-event
selection X and, before it resolves, a load is scheduled for a different
track-event selection Y, the details slot points at Y's fresh renderable
(distinct from X's); X's load completion is discarded outright — it neither
flips `isLoading` on, nor replaces, the slot held for Y — and only Y's
completion flips the slot's `isLoading` to false. -/
theorem C1_latest_selection_wins (getTrack : String → Option Track)
    (st0 : TabPanelState) (uriX uriY : String) (idX idY : Nat)
    (tdX tdY : Track)
    (hX : getTrack uriX = some tdX) (hdX : tdX.detailsPanel = true)
    (hY : getTrack uriY = some tdY) (hdY : tdY.detailsPanel = true)
    (hne : (Selection.trackEvent uriX idX) ≠ .trackEvent uriY idY)
    (h0 : st0.lastSeen ≠ some (.trackEvent uriX idX)) :
    st0.renderables.length ≠ st0.renderables.length + 1 ∧
    (afterTwoSchedules getTrack (.trackEvent uriX idX) (.trackEvent uriY idY)
        st0).trackEventDetailsPanel = some (st0.renderables.length + 1) ∧
    completeLoad st0.renderables.length
        (afterTwoSchedules getTrack (.trackEvent uriX idX) (.trackEvent uriY idY) st0) =
      afterTwoSchedules getTrack (.trackEvent uriX idX) (.trackEvent uriY idY) st0 ∧
    slotRenderable (completeLoad st0.renderables.length
        (afterTwoSchedules getTrack (.trackEvent uriX idX) (.trackEvent uriY idY) st0)) =
      some ⟨.trackEvent uriY idY, true⟩ ∧
    slotRenderable (completeLoad (st0.renderables.length + 1)
        (completeLoad st0.renderables.length
          (afterTwoSchedules getTrack (.trackEvent uriX idX) (.trackEvent uriY idY) st0))) =
      some ⟨.trackEvent uriY idY, false⟩ := by
  have h1 : maybeLoadDetailsPanel getTrack (.trackEvent uriX idX) st0 =
      { lastSeen := some (.trackEvent uriX idX),
        trackEventDetailsPanel := some st0.renderables.length,
        renderables := st0.renderables ++ [⟨.trackEvent uriX idX, true⟩],
        pendingLoad := some st0.renderables.length } := by
    rw [maybeLoadDetailsPanel, if_neg h0]
    simp [hX, hdX]
  have h2 : afterTwoSchedules getTrack (.trackEvent uriX idX) (.trackEvent uriY idY) st0 =
      { lastSeen := some (.trackEvent uriY idY),
        trackEventDetailsPanel := some (st0.renderables.length + 1),
        renderables := (st0.renderables ++ [⟨.trackEvent uriX idX, true⟩]) ++
          [⟨.trackEvent uriY idY, true⟩],
        pendingLoad := some (st0.renderables.length + 1) } := by
    rw [afterTwoSchedules, h1, maybeLoadDetailsPanel]
    rw [if_neg (by simpa using hne)]
    simp [hY, hdY]
  have hlen : ((st0.renderables ++ [(⟨.trackEvent uriX idX, true⟩ : Renderable)])).length =
      st0.renderables.length + 1 := by simp
  have hstale : ∀ (ls : Option Selection) (slot : Option Nat)
      (rs : List Renderable) (i j : Nat), i ≠ j →
      completeLoad i (⟨ls, slot, rs, some j⟩ : TabPanelState) = ⟨ls, slot, rs, some j⟩ := by
    intro ls slot rs i j hij
    rw [completeLoad]
    simp [Ne.symm hij]
  have hhonor : ∀ (ls : Option Selection) (slot : Option Nat)
      (rs : List Renderable) (i : Nat),
      completeLoad i (⟨ls, slot, rs, some i⟩ : TabPanelState) =
        ⟨ls, slot, setLoadingDone rs i, none⟩ := by
    intro ls slot rs i
    rw [completeLoad]
    simp
  have h3 : completeLoad st0.renderables.length
      (afterTwoSchedules getTrack (.trackEvent uriX idX) (.trackEvent uriY idY) st0) =
      afterTwoSchedules getTrack (.trackEvent uriX idX) (.trackEvent uriY idY) st0 := by
    rw [h2]
    exact hstale _ _ _ _ _ (by omega)
  have h4 : slotRenderable (completeLoad st0.renderables.length
      (afterTwoSchedules getTrack (.trackEvent uriX idX) (.trackEvent uriY idY) st0)) =
      some ⟨.trackEvent uriY idY, true⟩ := by
    rw [h3, h2]
    show ((st0.renderables ++ [(⟨.trackEvent uriX idX, true⟩ : Renderable)]) ++
      [(⟨.trackEvent uriY idY, true⟩ : Renderable)])[st0.renderables.length + 1]? =
      some ⟨.trackEvent uriY idY, true⟩
    rw [← hlen, getElem?_concat]
  have h5 : slotRenderable (completeLoad (st0.renderables.length + 1)
      (completeLoad st0.renderables.length
        (afterTwoSchedules getTrack (.trackEvent uriX idX) (.trackEvent uriY idY) st0))) =
      some ⟨.trackEvent uriY idY, false⟩ := by
    rw [h3, h2, hhonor]
    show (setLoadingDone ((st0.renderables ++ [(⟨.trackEvent uriX idX, true⟩ : Renderable)]) ++
      [(⟨.trackEvent uriY idY, true⟩ : Renderable)])
        (st0.renderables.length + 1))[st0.renderables.length + 1]? =
      some ⟨.trackEvent uriY idY, false⟩
    rw [← hlen, setLoadingDone_concat, getElem?_concat]
  exact ⟨by omega, by rw [h2], h3, h4, h5⟩

/-- C1 witness: from the initial tab-panel state, scheduling loads for two
distinct track-event selections and then resolving both loads in order leaves
the slot holding the second selection's renderable with loading finished,
untouched by the first (stale) completion. -/
theorem C1_latest_selection_wins_witness :
    (afterTwoSchedules (fun _ => some ⟨true⟩) (.trackEvent "t" 0) (.trackEvent "t" 1)
        ⟨none, none, [], none⟩).trackEventDetailsPanel = some 1 ∧
    completeLoad 0 (afterTwoSchedules (fun _ => some ⟨true⟩) (.trackEvent "t" 0)
        (.trackEvent "t" 1) ⟨none, none, [], none⟩) =
      afterTwoSchedules (fun _ => some ⟨true⟩) (.trackEvent "t" 0) (.trackEvent "t" 1)
        ⟨none, none, [], none⟩ ∧
    slotRenderable (completeLoad 0 (afterTwoSchedules (fun _ => some ⟨true⟩)
        (.trackEvent "t" 0) (.trackEvent "t" 1) ⟨none, none, [], none⟩)) =
      some ⟨.trackEvent "t" 1, true⟩ ∧
    slotRenderable (completeLoad 1 (completeLoad 0 (afterTwoSchedules (fun _ => some ⟨true⟩)
        (.trackEvent "t" 0) (.trackEvent "t" 1) ⟨none, none, [], none⟩))) =
      some ⟨.trackEvent "t" 1, false⟩ := by
  have h := C1_latest_selection_wins (fun _ => some ⟨true⟩) ⟨none, none, [], none⟩
    "t" "t" 0 1 ⟨true⟩ ⟨true⟩ rfl rfl rfl rfl (by simp) (by simp)
  exact ⟨h.2.1, h.2.2.1, h.2.2.2.1, h.2.2.2.2⟩

/-! ## C9 -/

/-- C9 counterexample: a fade-out whose promise is settled by the timer path:
the promise is resolved, yet the context's stored resolver is NOT replaced by
a no-op (it still holds promise 0's resolver); moreover a fade-in's mount
resolves nothing, so "resolved by the next fade-in's mount" and "after the
first resolution the stored resolver is replaced by a no-op" both fail. -/
theorem C9_counterexample :
    promiseResolved (timerFire 0 (fadeOutBeforeRemove ⟨none, [], [], 0⟩)) 0 = true ∧
    (timerFire 0 (fadeOutBeforeRemove ⟨none, [], [], 0⟩)).resolverSlot = some 0 ∧
    promiseResolved (fadeInCreate (fadeOutBeforeRemove ⟨none, [], [], 0⟩)) 0 = false := by
  refine ⟨?_, ?_, ?_⟩ <;> decide

/-- C9 (amended): a fade-out's completion promise is settled by its
fixed-duration timer or by the next fade-out component's mount (via
`FadeContext.resolve`), whichever happens first; the mount path replaces the
stored resolver with a no-op after calling it, and since promises settle at
most once, later events — a stale timer or a stale stored resolver invoked by
a later mount — never change an already-settled transition, so transitions
cannot stack. -/
theorem C9_fade_resolution (st : FadeState) (i j : Nat) :
    (fadeOutBeforeRemove st).resolverSlot = some st.nextPromiseId ∧
    st.nextPromiseId ∈ (fadeOutBeforeRemove st).timers ∧
    (i ∈ st.timers → promiseResolved (timerFire i st) i = true) ∧
    (st.resolverSlot = some i → promiseResolved (fadeOutCreate st) i = true) ∧
    (fadeOutCreate st).resolverSlot = none ∧
    (promiseResolved st i = true → promiseResolved (timerFire j st) i = true) ∧
    (promiseResolved st i = true → promiseResolved (fadeOutCreate st) i = true) ∧
    promiseResolved (fadeInCreate st) i = promiseResolved st i := by
  refine ⟨rfl, by simp [fadeOutBeforeRemove], ?_, ?_, ?_, ?_, ?_, rfl⟩
  · intro h
    simp [timerFire, h, promiseResolved]
  · intro h
    simp [fadeOutCreate, h, promiseResolved]
  · cases h : st.resolverSlot <;> simp [fadeOutCreate, h]
  · intro h
    simp only [promiseResolved] at h
    rw [timerFire]
    split
    · simp only [promiseResolved]
      simp at h ⊢
      exact Or.inr h
    · exact h
  · intro h
    simp only [promiseResolved] at h
    rw [fadeOutCreate]
    split
    · simp only [promiseResolved]
      simp at h ⊢
      exact Or.inr h
    · exact h

/-- C9 witness: concrete runs exercising each resolution path and the
stability of an already-settled promise. -/
theorem C9_fade_resolution_witness :
    promiseResolved (timerFire 5 ⟨some 5, [3], [5, 7], 8⟩) 5 = true ∧
    promiseResolved (fadeOutCreate ⟨some 5, [3], [5, 7], 8⟩) 5 = true ∧
    (fadeOutCreate ⟨some 5, [3], [5, 7], 8⟩).resolverSlot = none ∧
    promiseResolved (timerFire 7 ⟨some 5, [3], [5, 7], 8⟩) 3 = true := by
  have h := C9_fade_resolution ⟨some 5, [3], [5, 7], 8⟩ 5 7
  have h3 := C9_fade_resolution ⟨some 5, [3], [5, 7], 8⟩ 3 7
  exact ⟨h.2.2.1 (by decide), h.2.2.2.1 rfl, h.2.2.2.2.1,
    h3.2.2.2.2.2.1 (by decide)⟩

end PerfettoViewer
